import Mathlib

/-!
Shallow embedding of the AIM3S video-generation pipeline
(src/generate_video.py and src/aux_tools.py).

Modelling conventions:
* A timestamp (Python timezone-aware `datetime`) is a rational number of
  seconds since a fixed epoch; `timedelta` arithmetic is exact, so all time
  arithmetic is over `ℚ`.  `datetime.min` / `datetime.max` are the finite
  sentinels `datetime_min` / `datetime_max` below.
* A camera stream is its list of per-frame timestamps (`List ℚ`); frames are
  identified by their index.
* scipy `interp1d(x, range(len(x)), kind='nearest', assume_sorted=True)`
  evaluated at `v` is `searchsorted` with side `left` over the midpoints
  `(x[1:] + x[:-1]) / 2`, i.e. the number of midpoints strictly below `v`
  (ties at a midpoint resolve to the lower index).  `astype(np.uint16)`
  reduces the (integer-valued) result modulo 2^16.
* Filesystem effects of `generate_multicam_video` are modelled by an explicit
  output state (does the output video exist, and which alignment record is
  stored); `h5py` attribute round-trips are exact.
-/

/-- aux_tools.py `_min`. -/
def _min (a b : ℚ) : ℚ := if a < b then a else b

/-- aux_tools.py `_max`. -/
def _max (a b : ℚ) : ℚ := if a > b then a else b

/-- Python `datetime.min` (year 1) as seconds relative to the Unix epoch. -/
def datetime_min : ℚ := -62135596800

/-- Python `datetime.max` (year 9999) as seconds relative to the Unix epoch. -/
def datetime_max : ℚ := 253402300800

/-- aux_tools.py `date_range`: `t = t_start; while t < t_end: yield t; t += t_delta`.
The zero-step guard (`t_delta == 0` raises) is handled by the caller-side check in
`synchronize` below; a non-positive step simply gives the empty list here (the
pipeline only ever passes the positive step `1/fps`). -/
def date_range (s e δ : ℚ) : List ℚ :=
  if h : 0 < δ ∧ s < e then s :: date_range (s + δ) e δ else []
termination_by (⌈(e - s) / δ⌉).toNat
decreasing_by
  have h1 : (0 : ℚ) < (e - s) / δ := div_pos (by linarith [h.2]) h.1
  have h2 : (0 : ℤ) < ⌈(e - s) / δ⌉ := Int.ceil_pos.mpr h1
  have h3 : (e - (s + δ)) / δ = (e - s) / δ - 1 := by
    rw [show e - (s + δ) = e - s - δ by ring, sub_div, div_self (ne_of_gt h.1)]
  rw [h3, Int.ceil_sub_one]
  omega

/-- aux_tools.py `time_to_float` with an explicit reference instant:
seconds elapsed from `ref` for every entry. -/
def time_to_float (ts : List ℚ) (ref : ℚ) : List ℚ := ts.map (fun t => t - ref)

/-- Midpoints between consecutive sample positions, scipy's `x_bds`
`(x[1:] + x[:-1]) / 2` for nearest-neighbour interpolation. -/
def midpoints (xs : List ℚ) : List ℚ := List.zipWith (fun a b => (a + b) / 2) xs xs.tail

/-- scipy `interp1d(x, range(len(x)), kind='nearest', assume_sorted=True)` at `v`:
`searchsorted(x_bds, v, side='left')`, the number of midpoints strictly below `v`. -/
def nearestIdx (xs : List ℚ) (v : ℚ) : ℕ := (midpoints xs).countP (fun m => decide (m < v))

/-- One row of the frame-index table (generate_video.py line 45, before the
`uint16` cast): for each virtual timestamp, the nearest real frame index of the
camera with timestamps `ts`, after both are converted to seconds since `ref`. -/
def frameRow (ref : ℚ) (ts : List ℚ) (t_cam : List ℚ) : List ℕ :=
  t_cam.map (fun t => nearestIdx (time_to_float ts ref) (t - ref))

/-- One stored row of the frame-index table: `astype(np.uint16)` reduces each
index modulo 2^16. -/
def frameRowStored (ref : ℚ) (ts : List ℚ) (t_cam : List ℚ) : List ℕ :=
  (frameRow ref ts t_cam).map (fun i => i % 65536)

/-- generate_video.py lines 30-38: fold of `_max` over the first timestamp of
every camera, seeded with `datetime.min`. -/
def t_latest_start_of (streams : List (List ℚ)) : ℚ :=
  streams.foldl (fun acc ts => _max (ts.getD 0 0) acc) datetime_min

/-- generate_video.py lines 30-38: fold of `_min` over the last timestamp
(`ts[-1]`) of every camera, seeded with `datetime.max`. -/
def t_earliest_end_of (streams : List (List ℚ)) : ℚ :=
  streams.foldl (fun acc ts => _min (ts.getD (ts.length - 1) 0) acc) datetime_max

/-- generate_video.py line 41: the virtual timeline `t_cam`. -/
def syncTimeline (streams : List (List ℚ)) (fps : ℚ) : List ℚ :=
  date_range (t_latest_start_of streams) (t_earliest_end_of streams) (1 / fps)

/-- generate_video.py lines 43-46: the full frame-index table `frame_nums`,
one stored row per camera. -/
def syncFrameNums (streams : List (List ℚ)) (fps : ℚ) : List (List ℕ) :=
  streams.map (fun ts => frameRowStored (t_latest_start_of streams) ts (syncTimeline streams fps))

/-- The persisted alignment record (generate_video.py lines 55-59): hdf5
attributes `t_start`, `t_end`, `fps` and the dataset `frame_nums`. -/
structure Persisted where
  t_start : ℚ
  t_end : ℚ
  fps : ℚ
  frame_nums : List (List ℕ)
deriving DecidableEq, Repr

/-- How a synchronization run can die: `zeroDelta` is the only reported
configuration error (the `date_range` guard raising on a zero time step);
`indexError` is the unhandled `IndexError` from `t_cam[0]` at line 56 when the
virtual timeline is empty. -/
inductive SyncError where
  | zeroDelta
  | indexError
deriving DecidableEq, Repr

/-- The synchronization core of generate_video.py `generate_multicam_video`
(lines 30-59): compute the bounds, the virtual timeline and the frame-index
table, then persist `{t_start = t_cam[0], t_end = t_cam[-1], fps, frame_nums}`.
A zero step `1/fps` is the reported configuration error; an empty timeline
crashes with an `IndexError` at `t_cam[0]`. -/
def synchronize (streams : List (List ℚ)) (fps : ℚ) : Except SyncError Persisted :=
  if 1 / fps = 0 then .error .zeroDelta
  else
    match h : syncTimeline streams fps with
    | [] => .error .indexError
    | t0 :: rest =>
      .ok { t_start := t0
            t_end := (t0 :: rest).getLast (List.cons_ne_nil t0 rest)
            fps := fps
            frame_nums := syncFrameNums streams fps }

/-- generate_video.py line 105: the consumer regenerates the virtual timeline
from the persisted record as `date_range(t_start, t_end, 1/fps)`. -/
def reconstructTimeline (p : Persisted) : List ℚ :=
  date_range p.t_start p.t_end (1 / p.fps)

/-- The output artifacts of one experiment folder: whether the output video
file exists, and the alignment record stored in the sibling `.h5` file
(`none` when absent or truncated). -/
structure OutputState where
  video_exists : Bool
  alignment : Option Persisted
deriving DecidableEq

/-- generate_multicam_video's output-gating behaviour (lines 16-25 and 48-59):
if the output video exists and `overwrite` is false, return immediately without
touching anything; otherwise recompute.  On the `zeroDelta` configuration error
the run dies before the `.h5` file is opened (line 41 precedes line 55), on the
empty-timeline `IndexError` it dies after `h5py.File(..., 'w')` truncated the
record and after the `VideoWriter` created the video file. -/
def generate_multicam_video (st : OutputState) (streams : List (List ℚ)) (fps : ℚ)
    (overwrite : Bool) : OutputState :=
  if st.video_exists && !overwrite then st
  else
    match synchronize streams fps with
    | .ok p => { video_exists := true, alignment := some p }
    | .error .zeroDelta => st
    | .error .indexError => { video_exists := true, alignment := none }

/-- generate_video.py lines 66-69, inner loop of one output step: read cameras
`0, 1, 2, ...` in order at their scheduled frame positions; the first failed
read fires the assertion, identified by its camera index.  `read i pos` is the
outcome of `videos_in[i].read` after seeking to `pos`. -/
def readFrameLoop (read : ℕ → ℕ → Bool) (n : ℕ) : ℕ → List (List ℕ) → Option ℕ
  | _, [] => none
  | i, row :: rest =>
    if read i (row.getD n 0) then readFrameLoop read n (i + 1) rest else some i

/-- First camera whose read fails at output step `n` (`none` when all four
reads succeed). -/
def firstFailedCam (read : ℕ → ℕ → Bool) (frame_nums : List (List ℕ)) (n : ℕ) : Option ℕ :=
  readFrameLoop read n 0 frame_nums

/-- generate_video.py lines 62-64: the clip test
`curr_t < t_start or (t_end > 0 and curr_t > t_end)` that `continue`s past an
output step, with `curr_t = (t - t_cam[0]).total_seconds()`. -/
def clipPred (t_cam : List ℚ) (t_start t_end : ℚ) (n : ℕ) : Bool :=
  let curr := t_cam.getD n 0 - t_cam.getD 0 0
  decide (curr < t_start) || (decide (0 < t_end) && decide (t_end < curr))

/-- generate_video.py lines 62-82, the frame-writing loop over the virtual
timeline positions `ns`: a clipped step is skipped, otherwise all cameras are
read and the composite written; the first failed read raises the assertion
(step, camera) and ends the whole run.  Returns the steps actually written. -/
def writeLoop (read : ℕ → ℕ → Bool) (frame_nums : List (List ℕ)) (clip : ℕ → Bool) :
    List ℕ → Except (ℕ × ℕ) (List ℕ)
  | [] => .ok []
  | n :: rest =>
    if clip n then writeLoop read frame_nums clip rest
    else
      match firstFailedCam read frame_nums n with
      | some i => .error (n, i)
      | none =>
        match writeLoop read frame_nums clip rest with
        | .ok ws => .ok (n :: ws)
        | .error e => .error e

/-- generate_video.py line 160: `TIME_INCREMENT = timedelta(seconds=0.1)`. -/
def TIME_INCREMENT : ℚ := 1 / 10

/-- generate_video.py line 161: `FRAME_INCREMENT = 8`. -/
def FRAME_INCREMENT : ℤ := 8

/-- generate_video.py line 162: `LEFT_RIGHT_MULTIPLIER = 10`. -/
def LEFT_RIGHT_MULTIPLIER : ℤ := 10

/-- Modelled from the spec: OpenCV `VideoCapture` frame repositioning
(`set(CAP_PROP_POS_FRAMES, n)` followed by `get`) is external library code, not
part of this repository; per the spec the cursor is "clamped by the underlying
stream to the nearest valid position", i.e. into `[0, maxFrame]` (the code
comment at line 246: "Don't let it go over the length of the video"). -/
def clampCursor (maxFrame : ℤ) (z : ℤ) : ℤ := max 0 (min z maxFrame)

/-- The mutable state of the interactive playback loop of
generate_video.py `generate_video` (cursor `n`, pause flag, weight-to-camera
time offset, per-iteration UI flags, and whether the loop was exited by
`break`). -/
structure PlayerState where
  n : ℤ
  is_paused : Bool
  weight_to_cam_t_offset : ℚ
  do_skip_frames : Bool
  refresh_weight : Bool
  exited : Bool
deriving DecidableEq, Repr

/-- Net cursor displacement of the four frame-increment navigation keys
(left / right / up / down arrows, generate_video.py lines 203-218). -/
def keyDelta (k : ℤ) : ℤ :=
  if k = 63234 then -(LEFT_RIGHT_MULTIPLIER * FRAME_INCREMENT)
  else if k = 63235 then LEFT_RIGHT_MULTIPLIER * FRAME_INCREMENT
  else if k = 63232 then FRAME_INCREMENT
  else if k = 63233 then -FRAME_INCREMENT
  else 0

/-- generate_video.py lines 200-246, handling of one polled key `k` with
`has_cb` recording whether `cb_event_start_or_end` is configured.  The two
flags are reset (lines 201-202), the `elif` chain runs (a `break` at line 241
sets `exited` and skips the rest), then `refresh_weight` absorbs `not
is_paused` (line 242) and a pending frame skip repositions the cursor through
the underlying stream, which clamps it (lines 244-246). -/
def handleKey (maxFrame : ℤ) (has_cb : Bool) (k : ℤ) (st : PlayerState) : PlayerState :=
  let s0 : PlayerState :=
    { st with do_skip_frames := false, refresh_weight := false, exited := false }
  let s1 : PlayerState :=
    if k = 63234 then  -- Left arrow
      { s0 with n := s0.n - LEFT_RIGHT_MULTIPLIER * FRAME_INCREMENT,
                do_skip_frames := true, refresh_weight := true }
    else if k = 63235 then  -- Right arrow
      { s0 with n := s0.n + LEFT_RIGHT_MULTIPLIER * FRAME_INCREMENT,
                do_skip_frames := true, refresh_weight := true }
    else if k = 63232 then  -- Up arrow
      { s0 with n := s0.n + FRAME_INCREMENT,
                do_skip_frames := true, refresh_weight := true }
    else if k = 63233 then  -- Down arrow
      { s0 with n := s0.n - FRAME_INCREMENT,
                do_skip_frames := true, refresh_weight := true }
    else if k = 97 then  -- a
      { s0 with weight_to_cam_t_offset :=
          s0.weight_to_cam_t_offset - LEFT_RIGHT_MULTIPLIER * TIME_INCREMENT,
                refresh_weight := true }
    else if k = 100 then  -- d
      { s0 with weight_to_cam_t_offset :=
          s0.weight_to_cam_t_offset + LEFT_RIGHT_MULTIPLIER * TIME_INCREMENT,
                refresh_weight := true }
    else if k = 119 then  -- w
      { s0 with weight_to_cam_t_offset := s0.weight_to_cam_t_offset - TIME_INCREMENT,
                refresh_weight := true }
    else if k = 115 then  -- s
      { s0 with weight_to_cam_t_offset := s0.weight_to_cam_t_offset + TIME_INCREMENT,
                refresh_weight := true }
    else if k = 98 ∧ has_cb = true then s0  -- b: emit event-start callback
    else if k = 110 ∧ has_cb = true then s0  -- n: emit event-end callback
    else if k = 32 then { s0 with is_paused := !s0.is_paused }  -- space
    else if k = 27 ∨ (0 < k ∧ has_cb = false) then { s0 with exited := true }
    else s0
  if s1.exited then s1
  else
    let s2 : PlayerState := { s1 with refresh_weight := s1.refresh_weight || !s1.is_paused }
    if s2.do_skip_frames then { s2 with n := clampCursor maxFrame s2.n } else s2

/-- The property claimed of every frame-index table cell: `i` is an index of
`ts` whose timestamp is closest (by absolute difference) to the virtual
timestamp `v`, and every equally close index is not earlier than `i`. -/
def IsNearestWithTieLow (ts : List ℚ) (v : ℚ) (i : ℕ) : Prop :=
  ∃ hi : i < ts.length,
    ∀ j (hj : j < ts.length),
      |ts.get ⟨i, hi⟩ - v| < |ts.get ⟨j, hj⟩ - v| ∨
      (|ts.get ⟨i, hi⟩ - v| = |ts.get ⟨j, hj⟩ - v| ∧ i ≤ j)

/-- A camera stream with 65538 frames, one frame per second: long enough that
its nearest-frame indices cross 2^16. -/
def bigTs : List ℚ := (List.range 65538).map (fun j : ℕ => (j : ℚ))

/-- Four identical 65538-frame camera streams. -/
def bigS : List (List ℚ) := [bigTs, bigTs, bigTs, bigTs]

/-- Four small camera streams: cameras 1-3 cover seconds 0..2, camera 4 covers
seconds 0..1.5, so the virtual timeline at 1 fps is `[0, 1]`. -/
def demoStreams : List (List ℚ) := [[0, 2], [0, 2], [0, 2], [0, 3/2]]

/-- Four camera streams with zero overlap: cameras 1-3 end at second 1,
camera 4 starts at second 1, so `t_latest_start = t_earliest_end = 1`. -/
def noOverlapStreams : List (List ℚ) := [[0, 1], [0, 1], [0, 1], [1, 2]]

/-- Four camera streams with empty overlap: cameras 1-3 cover seconds 5..6,
camera 4 covers seconds 7..8, so `t_latest_start = 7 > 6 = t_earliest_end`. -/
def disjointStreams : List (List ℚ) := [[5, 6], [5, 6], [5, 6], [7, 8]]

/-! ### Generic facts about `searchsorted`-style counting -/

/-- In a list sorted non-decreasingly, position `j` is below the count of
elements strictly less than `v` exactly when the element at `j` is. -/
theorem countP_lt_char (v : ℚ) (l : List ℚ) (hl : l.Pairwise (· ≤ ·)) :
    ∀ j (hj : j < l.length), (j < l.countP (fun m => decide (m < v)) ↔ l.get ⟨j, hj⟩ < v) := by
  induction l with
  | nil => intro j hj; simp at hj
  | cons a t ih =>
    rw [List.pairwise_cons] at hl
    intro j hj
    rw [List.countP_cons]
    by_cases ha : a < v
    · simp only [ha, decide_eq_true_eq, if_pos]
      cases j with
      | zero => simpa using ha
      | succ j' =>
        have hj' : j' < t.length := by simpa using hj
        simpa [Nat.succ_lt_succ_iff] using ih hl.2 j' hj'
    · have hv : v ≤ a := le_of_not_lt ha
      have ht0 : t.countP (fun m => decide (m < v)) = 0 := by
        rw [List.countP_eq_zero]
        intro b hb
        simpa using not_lt.mpr (le_trans hv (hl.1 b hb))
      have hfa : (decide (a < v)) = false := by simpa using ha
      rw [hfa, if_neg (by simp), ht0]
      cases j with
      | zero => simpa using ha
      | succ j' =>
        have hj' : j' < t.length := by simpa using hj
        simp only [List.get_eq_getElem, List.getElem_cons_succ]
        constructor
        · intro h; exact absurd h (by omega)
        · intro hlt
          exact absurd hlt (not_lt.mpr (le_trans hv (hl.1 _ (t.getElem_mem hj'))))

/-- There is one midpoint fewer than there are samples. -/
theorem length_midpoints (xs : List ℚ) : (midpoints xs).length = xs.length - 1 := by
  simp [midpoints]

/-- The midpoint at position `k` averages samples `k` and `k + 1`. -/
theorem midpoints_get (xs : List ℚ) (k : ℕ) (hk : k < (midpoints xs).length) :
    (midpoints xs).get ⟨k, hk⟩ =
      (xs.get ⟨k, by rw [length_midpoints] at hk; omega⟩ +
       xs.get ⟨k + 1, by rw [length_midpoints] at hk; omega⟩) / 2 := by
  have hk' := hk
  rw [length_midpoints] at hk'
  simp only [midpoints, List.get_eq_getElem, List.getElem_zipWith, List.getElem_tail]

/-- Midpoints of a non-decreasing sample list are non-decreasing. -/
theorem midpoints_pairwise (xs : List ℚ) (h : xs.Pairwise (· ≤ ·)) :
    (midpoints xs).Pairwise (· ≤ ·) := by
  rw [List.pairwise_iff_getElem] at h ⊢
  intro i j hi hj hij
  have hi' := hi; have hj' := hj
  rw [length_midpoints] at hi' hj'
  have e1 := midpoints_get xs i hi
  have e2 := midpoints_get xs j hj
  simp only [List.get_eq_getElem] at e1 e2
  rw [e1, e2]
  have h1 : xs.get ⟨i, by omega⟩ ≤ xs.get ⟨j, by omega⟩ := h i j (by omega) (by omega) hij
  have h2 : xs.get ⟨i + 1, by omega⟩ ≤ xs.get ⟨j + 1, by omega⟩ :=
    h (i + 1) (j + 1) (by omega) (by omega) (by omega)
  simp only [List.get_eq_getElem] at h1 h2
  linarith

/-- The nearest index never exceeds the last sample index. -/
theorem nearestIdx_le (xs : List ℚ) (v : ℚ) : nearestIdx xs v ≤ xs.length - 1 := by
  have := List.countP_le_length (p := fun m => decide (m < v)) (l := midpoints xs)
  rw [length_midpoints] at this
  exact le_trans (by exact this) (le_refl _)

/-- On a nonempty sample list the nearest index is a valid index. -/
theorem nearestIdx_lt_length (xs : List ℚ) (v : ℚ) (h : xs ≠ []) :
    nearestIdx xs v < xs.length := by
  have h1 := nearestIdx_le xs v
  have h2 : 0 < xs.length := List.length_pos.mpr h
  omega

/-- The nearest index is monotone in the query point. -/
theorem nearestIdx_mono (xs : List ℚ) {v w : ℚ} (h : v ≤ w) :
    nearestIdx xs v ≤ nearestIdx xs w := by
  exact List.countP_mono_left (fun m _ hm => by
    simp only [decide_eq_true_eq] at hm ⊢; linarith)

/-- Position-between-midpoints characterisation of the nearest index over a
non-decreasing sample list. -/
theorem nearestIdx_char (xs : List ℚ) (hxs : xs.Pairwise (· ≤ ·)) (v : ℚ)
    (j : ℕ) (hj : j < (midpoints xs).length) :
    (j < nearestIdx xs v ↔ (midpoints xs).get ⟨j, hj⟩ < v) :=
  countP_lt_char v (midpoints xs) (midpoints_pairwise xs hxs) j hj

/-- Entries of a non-decreasing list compare like their positions. -/
theorem pairwise_le_get (xs : List ℚ) (h : xs.Pairwise (· ≤ ·)) (a b : ℕ)
    (ha : a < xs.length) (hb : b < xs.length) (hab : a ≤ b) :
    xs.get ⟨a, ha⟩ ≤ xs.get ⟨b, hb⟩ := by
  rcases Nat.eq_or_lt_of_le hab with rfl | hlt
  · exact le_refl _
  · have := (List.pairwise_iff_getElem.mp h) a b ha hb hlt
    simpa [List.get_eq_getElem] using this

/-- Entries of a strictly increasing list compare strictly like their positions. -/
theorem pairwise_lt_get (xs : List ℚ) (h : xs.Pairwise (· < ·)) (a b : ℕ)
    (ha : a < xs.length) (hb : b < xs.length) (hab : a < b) :
    xs.get ⟨a, ha⟩ < xs.get ⟨b, hb⟩ := by
  have := (List.pairwise_iff_getElem.mp h) a b ha hb hab
  simpa [List.get_eq_getElem] using this

/-- Over a strictly increasing sample list, `nearestIdx` returns the index of
a closest sample, and among equally close samples the earliest index. -/
theorem nearestIdx_spec (xs : List ℚ) (hxs : xs.Pairwise (· < ·)) (hne : xs ≠ []) (v : ℚ) :
    IsNearestWithTieLow xs v (nearestIdx xs v) := by
  have hle : xs.Pairwise (· ≤ ·) := hxs.imp (fun h => le_of_lt h)
  have hi : nearestIdx xs v < xs.length := nearestIdx_lt_length xs v hne
  have hmidlen : (midpoints xs).length = xs.length - 1 := length_midpoints xs
  have hi_le : nearestIdx xs v ≤ xs.length - 1 := nearestIdx_le xs v
  refine ⟨hi, ?_⟩
  intro j hj
  rcases lt_trichotomy j (nearestIdx xs v) with hji | hji | hij
  · -- an index strictly before the selected one is strictly farther
    left
    have hmi : nearestIdx xs v - 1 < (midpoints xs).length := by omega
    have hlt : (midpoints xs).get ⟨nearestIdx xs v - 1, hmi⟩ < v :=
      (nearestIdx_char xs hle v (nearestIdx xs v - 1) hmi).mp (by omega)
    rw [midpoints_get] at hlt
    have hidx : nearestIdx xs v - 1 + 1 = nearestIdx xs v := by omega
    simp only [hidx] at hlt
    have hCA : xs.get ⟨nearestIdx xs v - 1, by omega⟩ < xs.get ⟨nearestIdx xs v, hi⟩ :=
      pairwise_lt_get xs hxs _ _ (by omega) hi (by omega)
    have hBC : xs.get ⟨j, hj⟩ ≤ xs.get ⟨nearestIdx xs v - 1, by omega⟩ :=
      pairwise_le_get xs hle _ _ hj (by omega) (by omega)
    have hBA : xs.get ⟨j, hj⟩ < xs.get ⟨nearestIdx xs v, hi⟩ :=
      pairwise_lt_get xs hxs _ _ hj hi hji
    have hBv : xs.get ⟨j, hj⟩ < v := by linarith
    rw [abs_sub_lt_iff, abs_of_neg (by linarith : xs.get ⟨j, hj⟩ - v < 0)]
    constructor <;> linarith
  · subst hji
    exact Or.inr ⟨rfl, le_refl _⟩
  · -- an index strictly after the selected one is at least as far
    have hmj : nearestIdx xs v < (midpoints xs).length := by omega
    have hge : v ≤ (midpoints xs).get ⟨nearestIdx xs v, hmj⟩ := by
      by_contra hcon
      exact absurd ((nearestIdx_char xs hle v (nearestIdx xs v) hmj).mpr
        (lt_of_not_le hcon)) (by omega)
    rw [midpoints_get] at hge
    have hAD : xs.get ⟨nearestIdx xs v, hi⟩ < xs.get ⟨nearestIdx xs v + 1, by omega⟩ :=
      pairwise_lt_get xs hxs _ _ hi (by omega) (by omega)
    have hDB : xs.get ⟨nearestIdx xs v + 1, by omega⟩ ≤ xs.get ⟨j, hj⟩ :=
      pairwise_le_get xs hle _ _ (by omega) hj (by omega)
    have hvB : v ≤ xs.get ⟨j, hj⟩ := by linarith
    have hkey : |xs.get ⟨nearestIdx xs v, hi⟩ - v| ≤ |xs.get ⟨j, hj⟩ - v| := by
      rw [abs_of_nonneg (by linarith : (0:ℚ) ≤ xs.get ⟨j, hj⟩ - v), abs_sub_le_iff]
      constructor <;> linarith
    rcases lt_or_eq_of_le hkey with h | h
    · exact Or.inl h
    · exact Or.inr ⟨h, by omega⟩

/-- Querying a strictly increasing sample list exactly at one of its samples
selects that sample's index. -/
theorem nearestIdx_self (xs : List ℚ) (hxs : xs.Pairwise (· < ·)) (k : ℕ) (hk : k < xs.length) :
    nearestIdx xs (xs.get ⟨k, hk⟩) = k := by
  have hle : xs.Pairwise (· ≤ ·) := hxs.imp (fun h => le_of_lt h)
  have hml : (midpoints xs).length = xs.length - 1 := length_midpoints xs
  have hub : nearestIdx xs (xs.get ⟨k, hk⟩) ≤ xs.length - 1 := nearestIdx_le xs _
  by_contra hne
  rcases Nat.lt_or_ge (nearestIdx xs (xs.get ⟨k, hk⟩)) k with hlt | hge
  · have hmi : nearestIdx xs (xs.get ⟨k, hk⟩) < (midpoints xs).length := by omega
    have hge2 : ¬ ((midpoints xs).get ⟨nearestIdx xs (xs.get ⟨k, hk⟩), hmi⟩ < xs.get ⟨k, hk⟩) :=
      fun hcon => absurd ((nearestIdx_char xs hle _ _ hmi).mpr hcon) (lt_irrefl _)
    rw [midpoints_get] at hge2
    push_neg at hge2
    have h1 : xs.get ⟨nearestIdx xs (xs.get ⟨k, hk⟩), by omega⟩ < xs.get ⟨k, hk⟩ :=
      pairwise_lt_get xs hxs _ _ (by omega) hk hlt
    have h2 : xs.get ⟨nearestIdx xs (xs.get ⟨k, hk⟩) + 1, by omega⟩ ≤ xs.get ⟨k, hk⟩ :=
      pairwise_le_get xs hle _ _ (by omega) hk (by omega)
    linarith
  · have hlt2 : k < nearestIdx xs (xs.get ⟨k, hk⟩) := by omega
    have hmk : k < (midpoints xs).length := by omega
    have hmid : (midpoints xs).get ⟨k, hmk⟩ < xs.get ⟨k, hk⟩ :=
      (nearestIdx_char xs hle _ k hmk).mp hlt2
    rw [midpoints_get] at hmid
    have h1 : xs.get ⟨k, by omega⟩ = xs.get ⟨k, hk⟩ := rfl
    have h2 : xs.get ⟨k, hk⟩ < xs.get ⟨k + 1, by omega⟩ :=
      pairwise_lt_get xs hxs _ _ hk (by omega) (by omega)
    linarith

/-! ### Anatomy of `date_range` -/

/-- Unfolding equation of the `date_range` while loop. -/
theorem date_range_eq (s e δ : ℚ) :
    date_range s e δ = if 0 < δ ∧ s < e then s :: date_range (s + δ) e δ else [] := by
  rw [date_range]
  split <;> rfl

/-- With a positive step, `date_range` enumerates
`s, s + δ, ..., s + (n-1)·δ` where `n = ⌈(e - s)/δ⌉`. -/
theorem date_range_eq_map (s e δ : ℚ) (hδ : 0 < δ) :
    date_range s e δ =
      (List.range (⌈(e - s) / δ⌉).toNat).map (fun k : ℕ => s + (k : ℚ) * δ) := by
  rw [date_range_eq]
  by_cases hse : s < e
  · rw [if_pos ⟨hδ, hse⟩]
    have h1 : (0 : ℚ) < (e - s) / δ := div_pos (by linarith) hδ
    have h2 : (0 : ℤ) < ⌈(e - s) / δ⌉ := Int.ceil_pos.mpr h1
    have h3 : (e - (s + δ)) / δ = (e - s) / δ - 1 := by
      rw [show e - (s + δ) = e - s - δ by ring, sub_div, div_self (ne_of_gt hδ)]
    have ih := date_range_eq_map (s + δ) e δ hδ
    rw [ih, h3, Int.ceil_sub_one]
    have h4 : (⌈(e - s) / δ⌉ - 1).toNat + 1 = (⌈(e - s) / δ⌉).toNat := by omega
    rw [← h4, List.range_succ_eq_map, List.map_cons, List.map_map]
    refine List.cons_eq_cons.mpr ⟨by push_cast; ring, ?_⟩
    apply List.map_congr_left
    intro k _
    simp only [Function.comp_apply, Nat.succ_eq_add_one]
    push_cast
    ring
  · rw [if_neg (fun hc => hse hc.2)]
    have h1 : (e - s) / δ ≤ 0 := div_nonpos_of_nonpos_of_nonneg (by linarith) (le_of_lt hδ)
    have h2 : ⌈(e - s) / δ⌉ ≤ 0 := by
      have := Int.ceil_le.mpr (show (e - s) / δ ≤ ((0 : ℤ) : ℚ) by push_cast; linarith)
      simpa using this
    have h3 : (⌈(e - s) / δ⌉).toNat = 0 := by omega
    rw [h3]
    simp
termination_by (⌈(e - s) / δ⌉).toNat
decreasing_by
  rw [h3, Int.ceil_sub_one]
  omega

/-- Number of virtual-timeline entries. -/
theorem date_range_length (s e δ : ℚ) (hδ : 0 < δ) :
    (date_range s e δ).length = (⌈(e - s) / δ⌉).toNat := by
  rw [date_range_eq_map s e δ hδ]
  simp

/-- Entry `k` of the virtual timeline is `s + k·δ`. -/
theorem date_range_get (s e δ : ℚ) (hδ : 0 < δ) (k : ℕ)
    (hk : k < (date_range s e δ).length) :
    (date_range s e δ).get ⟨k, hk⟩ = s + (k : ℚ) * δ := by
  have hk' := hk
  rw [date_range_length s e δ hδ] at hk'
  simp only [date_range_eq_map s e δ hδ, List.get_eq_getElem, List.getElem_map,
    List.getElem_range]

/-- Every `date_range` entry lies strictly below the end bound. -/
theorem date_range_mem_lt (s e δ : ℚ) (hδ : 0 < δ) (t : ℚ) (ht : t ∈ date_range s e δ) :
    t < e := by
  rw [date_range_eq_map s e δ hδ] at ht
  rcases List.mem_map.mp ht with ⟨k, hk, rfl⟩
  rcases List.mem_range.mp hk with hk'
  have h1 : (k : ℤ) < ⌈(e - s) / δ⌉ := by omega
  have h2 : ((⌈(e - s) / δ⌉ : ℤ) : ℚ) < (e - s) / δ + 1 := Int.ceil_lt_add_one _
  have h3 : (k : ℚ) + 1 ≤ ((⌈(e - s) / δ⌉ : ℤ) : ℚ) := by exact_mod_cast h1
  have h4 : (k : ℚ) < (e - s) / δ := by linarith
  have h5 : (k : ℚ) * δ < e - s := by
    have := (mul_lt_mul_right hδ).mpr h4
    rwa [div_mul_cancel₀ _ (ne_of_gt hδ)] at this
  linarith

/-- Every `date_range` entry lies at or above the start bound. -/
theorem date_range_mem_ge (s e δ : ℚ) (hδ : 0 < δ) (t : ℚ) (ht : t ∈ date_range s e δ) :
    s ≤ t := by
  rw [date_range_eq_map s e δ hδ] at ht
  rcases List.mem_map.mp ht with ⟨k, _, rfl⟩
  have : (0 : ℚ) ≤ (k : ℚ) * δ := mul_nonneg (by positivity) (le_of_lt hδ)
  linarith

/-- Consecutive `date_range` entries differ by exactly the step. -/
theorem date_range_chain (s e δ : ℚ) :
    (date_range s e δ).Chain' (fun a b => b = a + δ) := by
  by_cases hδ : 0 < δ
  · rw [List.chain'_iff_get]
    intro i hi
    have hlen : i + 1 < (date_range s e δ).length := by omega
    rw [date_range_get s e δ hδ i (by omega), date_range_get s e δ hδ (i + 1) hlen]
    push_cast
    ring
  · rw [date_range_eq, if_neg (fun hc => hδ hc.1)]
    exact List.chain'_nil

/-- `date_range` starts at its start bound whenever it is nonempty. -/
theorem date_range_head (s e δ : ℚ) (hδ : 0 < δ) (hse : s < e) :
    (date_range s e δ).head? = some s := by
  rw [date_range_eq, if_pos ⟨hδ, hse⟩]
  rfl

/-- An empty coverage window yields an empty `date_range`. -/
theorem date_range_empty (s e δ : ℚ) (h : e ≤ s) : date_range s e δ = [] := by
  rw [date_range_eq, if_neg]
  rintro ⟨-, hse⟩
  exact absurd hse (not_lt.mpr h)

/-! ### The synchronization bounds -/

/-- aux_tools.py `_max` is the lattice max. -/
theorem _max_eq (a b : ℚ) : _max a b = max a b := by
  unfold _max
  split_ifs with h
  · exact (max_eq_left (le_of_lt h)).symm
  · exact (max_eq_right (le_of_not_lt h)).symm

/-- aux_tools.py `_min` is the lattice min. -/
theorem _min_eq (a b : ℚ) : _min a b = min a b := by
  unfold _min
  split_ifs with h
  · exact (min_eq_left (le_of_lt h)).symm
  · exact (min_eq_right (le_of_not_lt h)).symm

/-- The `_max` fold over four streams, written with lattice maxes. -/
theorem t_latest_start_four (s1 s2 s3 s4 : List ℚ) :
    t_latest_start_of [s1, s2, s3, s4] =
      max (s4.getD 0 0) (max (s3.getD 0 0) (max (s2.getD 0 0)
        (max (s1.getD 0 0) datetime_min))) := by
  simp [t_latest_start_of, _max_eq]

/-- The `_min` fold over four streams, written with lattice mins. -/
theorem t_earliest_end_four (s1 s2 s3 s4 : List ℚ) :
    t_earliest_end_of [s1, s2, s3, s4] =
      min (s4.getD (s4.length - 1) 0) (min (s3.getD (s3.length - 1) 0)
        (min (s2.getD (s2.length - 1) 0) (min (s1.getD (s1.length - 1) 0) datetime_max))) := by
  simp [t_earliest_end_of, _min_eq]

/-! ### Claim C2 -/

/-- C2: for every set of four camera streams, the virtual timeline computed by
the synchronizer starts at `t_latest_start` (the max over cameras of the first
timestamp, provided the sentinels do not interfere), every consecutive pair of
entries is spaced by exactly `1/fps` seconds, every entry is strictly less than
`t_earliest_end` (the min over cameras of the last timestamp), and
`t_earliest_end` itself is excluded (half-open range). -/
theorem syncTimeline_spec (s1 s2 s3 s4 : List ℚ) (fps : ℚ) (hfps : 0 < fps)
    (hlo : ∀ ts ∈ [s1, s2, s3, s4], datetime_min ≤ ts.getD 0 0)
    (hhi : ∀ ts ∈ [s1, s2, s3, s4], ts.getD (ts.length - 1) 0 ≤ datetime_max) :
    t_latest_start_of [s1, s2, s3, s4] =
      max (max (max (s1.getD 0 0) (s2.getD 0 0)) (s3.getD 0 0)) (s4.getD 0 0) ∧
    t_earliest_end_of [s1, s2, s3, s4] =
      min (min (min (s1.getD (s1.length - 1) 0) (s2.getD (s2.length - 1) 0))
        (s3.getD (s3.length - 1) 0)) (s4.getD (s4.length - 1) 0) ∧
    (t_latest_start_of [s1, s2, s3, s4] < t_earliest_end_of [s1, s2, s3, s4] →
      (syncTimeline [s1, s2, s3, s4] fps).head? = some (t_latest_start_of [s1, s2, s3, s4])) ∧
    (syncTimeline [s1, s2, s3, s4] fps).Chain' (fun a b => b - a = 1 / fps) ∧
    (∀ t ∈ syncTimeline [s1, s2, s3, s4] fps, t < t_earliest_end_of [s1, s2, s3, s4]) ∧
    t_earliest_end_of [s1, s2, s3, s4] ∉ syncTimeline [s1, s2, s3, s4] fps := by
  have hδ : 0 < 1 / fps := by positivity
  refine ⟨?_, ?_, ?_, ?_, ?_, ?_⟩
  · rw [t_latest_start_four]
    rw [max_eq_left (hlo s1 (by simp))]
    simp [max_comm, max_left_comm, max_assoc]
  · rw [t_earliest_end_four]
    rw [min_eq_left (hhi s1 (by simp))]
    simp [min_comm, min_left_comm, min_assoc]
  · intro hover
    exact date_range_head _ _ _ hδ hover
  · exact (date_range_chain _ _ _).imp (fun a b hab => by rw [hab]; ring)
  · intro t ht
    exact date_range_mem_lt _ _ _ hδ t ht
  · intro hmem
    exact absurd (date_range_mem_lt _ _ _ hδ _ hmem) (lt_irrefl _)

/-- Witness for C2 at four concrete overlapping streams and 1 fps. -/
theorem syncTimeline_spec_witness :
    ((0 : ℚ) < 1 ∧
      (∀ ts ∈ [[(0 : ℚ), 2], [0, 2], [0, 2], [0, 2]], datetime_min ≤ ts.getD 0 0) ∧
      (∀ ts ∈ [[(0 : ℚ), 2], [0, 2], [0, 2], [0, 2]], ts.getD (ts.length - 1) 0 ≤ datetime_max)) ∧
    (t_latest_start_of [[(0 : ℚ), 2], [0, 2], [0, 2], [0, 2]] =
      max (max (max (([(0 : ℚ), 2]).getD 0 0) (([(0 : ℚ), 2]).getD 0 0))
        (([(0 : ℚ), 2]).getD 0 0)) (([(0 : ℚ), 2]).getD 0 0) ∧
    t_earliest_end_of [[(0 : ℚ), 2], [0, 2], [0, 2], [0, 2]] =
      min (min (min (([(0 : ℚ), 2]).getD (([(0 : ℚ), 2]).length - 1) 0)
        (([(0 : ℚ), 2]).getD (([(0 : ℚ), 2]).length - 1) 0))
        (([(0 : ℚ), 2]).getD (([(0 : ℚ), 2]).length - 1) 0))
        (([(0 : ℚ), 2]).getD (([(0 : ℚ), 2]).length - 1) 0) ∧
    (t_latest_start_of [[(0 : ℚ), 2], [0, 2], [0, 2], [0, 2]] <
        t_earliest_end_of [[(0 : ℚ), 2], [0, 2], [0, 2], [0, 2]] →
      (syncTimeline [[(0 : ℚ), 2], [0, 2], [0, 2], [0, 2]] 1).head? =
        some (t_latest_start_of [[(0 : ℚ), 2], [0, 2], [0, 2], [0, 2]])) ∧
    (syncTimeline [[(0 : ℚ), 2], [0, 2], [0, 2], [0, 2]] 1).Chain' (fun a b => b - a = 1 / 1) ∧
    (∀ t ∈ syncTimeline [[(0 : ℚ), 2], [0, 2], [0, 2], [0, 2]] 1,
      t < t_earliest_end_of [[(0 : ℚ), 2], [0, 2], [0, 2], [0, 2]]) ∧
    t_earliest_end_of [[(0 : ℚ), 2], [0, 2], [0, 2], [0, 2]] ∉
      syncTimeline [[(0 : ℚ), 2], [0, 2], [0, 2], [0, 2]] 1) := by
  refine ⟨⟨by norm_num, ?_, ?_⟩, ?_⟩
  · intro ts hts
    simp only [List.mem_cons, List.not_mem_nil, or_false] at hts
    rcases hts with rfl | rfl | rfl | rfl <;> norm_num [datetime_min]
  · intro ts hts
    simp only [List.mem_cons, List.not_mem_nil, or_false] at hts
    rcases hts with rfl | rfl | rfl | rfl <;> norm_num [datetime_max]
  · exact syncTimeline_spec [(0 : ℚ), 2] [0, 2] [0, 2] [0, 2] 1 (by norm_num)
      (by intro ts hts
          simp only [List.mem_cons, List.not_mem_nil, or_false] at hts
          rcases hts with rfl | rfl | rfl | rfl <;> norm_num [datetime_min])
      (by intro ts hts
          simp only [List.mem_cons, List.not_mem_nil, or_false] at hts
          rcases hts with rfl | rfl | rfl | rfl <;> norm_num [datetime_max])

/-! ### Claim C4 -/

/-- When the virtual timeline comes out empty, the synchronizer dies with the
uncaught `IndexError` from `t_cam[0]` (generate_video.py line 56). -/
theorem synchronize_of_empty (streams : List (List ℚ)) (fps : ℚ) (hfps : 0 < fps)
    (h : syncTimeline streams fps = []) :
    synchronize streams fps = .error SyncError.indexError := by
  have hδ : 0 < 1 / fps := by positivity
  unfold synchronize
  rw [if_neg (ne_of_gt hδ)]
  split
  · rfl
  · rename_i t0 rest heq
    rw [h] at heq
    cases heq

/-- C4 (amended): for every input where `t_latest_start ≥ t_earliest_end`
(non-overlapping coverage, including zero overlap) and a positive fps, the
synchronizer does NOT report a configuration error; it computes an empty
virtual timeline and aborts with the uncaught index error raised while
persisting the alignment. -/
theorem synchronize_no_overlap (streams : List (List ℚ)) (fps : ℚ) (hfps : 0 < fps)
    (h : t_earliest_end_of streams ≤ t_latest_start_of streams) :
    syncTimeline streams fps = [] ∧
    synchronize streams fps = .error SyncError.indexError := by
  have hempty : syncTimeline streams fps = [] := date_range_empty _ _ _ h
  exact ⟨hempty, synchronize_of_empty streams fps hfps hempty⟩

/-- C4 counterexample: at zero overlap (`t_latest_start = t_earliest_end = 1`)
the synchronizer produces an empty virtual timeline and fails with the
`IndexError`, which is not the reported `zeroDelta` configuration error —
contradicting the claim that it fails with a configuration error rather than
producing an empty timeline. -/
theorem synchronize_no_overlap_counterexample :
    t_latest_start_of noOverlapStreams = 1 ∧
    t_earliest_end_of noOverlapStreams = 1 ∧
    syncTimeline noOverlapStreams 25 = [] ∧
    synchronize noOverlapStreams 25 = .error SyncError.indexError ∧
    SyncError.indexError ≠ SyncError.zeroDelta := by
  have h1 : t_latest_start_of noOverlapStreams = 1 := by
    norm_num [noOverlapStreams, t_latest_start_four, datetime_min]
  have h2 : t_earliest_end_of noOverlapStreams = 1 := by
    norm_num [noOverlapStreams, t_earliest_end_four, datetime_max]
  have h3 : syncTimeline noOverlapStreams 25 = [] := by
    unfold syncTimeline
    rw [h1, h2]
    exact date_range_empty _ _ _ (le_refl _)
  exact ⟨h1, h2, h3, synchronize_of_empty _ _ (by norm_num) h3, by simp⟩

/-- Witness for C4 at four concrete disjoint streams and 25 fps. -/
theorem synchronize_no_overlap_witness :
    ((0 : ℚ) < 25 ∧ t_earliest_end_of disjointStreams ≤ t_latest_start_of disjointStreams) ∧
    (syncTimeline disjointStreams 25 = [] ∧
      synchronize disjointStreams 25 = .error SyncError.indexError) := by
  have h1 : t_latest_start_of disjointStreams = 7 := by
    norm_num [disjointStreams, t_latest_start_four, datetime_min]
  have h2 : t_earliest_end_of disjointStreams = 6 := by
    norm_num [disjointStreams, t_earliest_end_four, datetime_max]
  have hle : t_earliest_end_of disjointStreams ≤ t_latest_start_of disjointStreams := by
    rw [h1, h2]; norm_num
  exact ⟨⟨by norm_num, hle⟩, synchronize_no_overlap disjointStreams 25 (by norm_num) hle⟩

/-! ### Claim C3 -/

/-- The demo streams all start at second 0. -/
theorem demo_lat : t_latest_start_of demoStreams = 0 := by
  norm_num [demoStreams, t_latest_start_four, datetime_min]

/-- The earliest demo stream end is camera 4's, at second 1.5. -/
theorem demo_earl : t_earliest_end_of demoStreams = 3 / 2 := by
  norm_num [demoStreams, t_earliest_end_four, datetime_max]

/-- The demo virtual timeline at 1 fps: seconds 0 and 1. -/
theorem demo_tl : syncTimeline demoStreams 1 = [0, 1] := by
  unfold syncTimeline
  rw [demo_lat, demo_earl]
  rw [show (1 : ℚ) / 1 = 1 by norm_num]
  rw [date_range_eq, if_pos (by norm_num)]
  norm_num
  rw [date_range_eq, if_pos (by norm_num)]
  norm_num
  exact date_range_empty _ _ _ (by norm_num)

/-- The demo frame-index table: cameras 1-3 pick frame 0 for both virtual
timestamps (at second 1 their frames 0 and 1 are equally close, and the tie
resolves to the earlier index), camera 4 picks frames 0 and 1 (its frame 1 at
second 1.5 is nearest to second 1). -/
theorem demo_frame_nums : syncFrameNums demoStreams 1 = [[0, 0], [0, 0], [0, 0], [0, 1]] := by
  unfold syncFrameNums
  simp only [demo_lat, demo_tl]
  norm_num [demoStreams, frameRowStored, frameRow, time_to_float, nearestIdx, midpoints]

/-- The full persisted record of the demo synchronization run. -/
theorem demo_synchronize :
    synchronize demoStreams 1 =
      .ok { t_start := 0, t_end := 1, fps := 1,
            frame_nums := [[0, 0], [0, 0], [0, 0], [0, 1]] } := by
  unfold synchronize
  rw [if_neg (by norm_num : ¬ (1 : ℚ) / 1 = 0)]
  split
  · rename_i heq
    rw [demo_tl] at heq
    cases heq
  · rename_i t0 rest heq
    rw [demo_tl] at heq
    injection heq with h1 h2
    subst h1
    subst h2
    simp [demo_frame_nums, List.getLast]

/-- C3 (code bug): the persisted record is NOT sufficient to reconstruct the
original virtual timeline.  For the demo streams the synchronizer computes the
timeline `[0, 1]` and persists `t_start = 0`, `t_end = 1`, `fps = 1`; the
consumer's regeneration `date_range(t_start, t_end, 1/fps)` is half-open at
`t_end` and returns `[0]`, one entry shorter than every `frame_nums` row —
contradicting the code's own comment "Save timing params so t_cam can be
reconstructed". -/
theorem reconstruct_loses_last_entry :
    syncTimeline demoStreams 1 = [0, 1] ∧
    synchronize demoStreams 1 =
      .ok { t_start := 0, t_end := 1, fps := 1,
            frame_nums := [[0, 0], [0, 0], [0, 0], [0, 1]] } ∧
    reconstructTimeline
      { t_start := 0, t_end := 1, fps := 1,
        frame_nums := [[0, 0], [0, 0], [0, 0], [0, 1]] } = [0] ∧
    ([0] : List ℚ) ≠ [0, 1] := by
  refine ⟨demo_tl, demo_synchronize, ?_, by simp⟩
  unfold reconstructTimeline
  simp only
  rw [show (1 : ℚ) / 1 = 1 by norm_num]
  rw [date_range_eq, if_pos (by norm_num)]
  norm_num
  exact date_range_empty _ _ _ (by norm_num)

/-! ### Claim C5 -/

/-- C5: with the output video already present and `overwrite = false`, the run
returns immediately and the output state (in particular the persisted
`frame_nums`) is exactly what it was; with `overwrite = true` the run
recomputes and replaces the artifacts with the fresh synchronization result. -/
theorem generate_multicam_video_idempotent (st : OutputState) (streams : List (List ℚ))
    (fps : ℚ) :
    (st.video_exists = true → generate_multicam_video st streams fps false = st) ∧
    (∀ p : Persisted, synchronize streams fps = .ok p →
      generate_multicam_video st streams fps true =
        { video_exists := true, alignment := some p }) := by
  constructor
  · intro hex
    unfold generate_multicam_video
    rw [if_pos (by simp [hex])]
  · intro p hp
    unfold generate_multicam_video
    rw [if_neg (by simp), hp]

/-- Witness for C5: a folder whose output exists with a stored alignment is
untouched by an `overwrite = false` re-run, and replaced by the fresh demo
result on an `overwrite = true` run. -/
theorem generate_multicam_video_idempotent_witness :
    ((OutputState.mk true (some (Persisted.mk 5 6 7 [[1]]))).video_exists = true ∧
      generate_multicam_video (OutputState.mk true (some (Persisted.mk 5 6 7 [[1]])))
        demoStreams 1 false = OutputState.mk true (some (Persisted.mk 5 6 7 [[1]]))) ∧
    (synchronize demoStreams 1 =
        .ok (Persisted.mk 0 1 1 [[0, 0], [0, 0], [0, 0], [0, 1]]) ∧
      generate_multicam_video (OutputState.mk true (some (Persisted.mk 5 6 7 [[1]])))
        demoStreams 1 true =
        OutputState.mk true (some (Persisted.mk 0 1 1 [[0, 0], [0, 0], [0, 0], [0, 1]]))) := by
  refine ⟨⟨rfl, ?_⟩, demo_synchronize, ?_⟩
  · exact (generate_multicam_video_idempotent _ demoStreams 1).1 rfl
  · exact (generate_multicam_video_idempotent _ demoStreams 1).2 _ demo_synchronize

/-! ### Claim C6 -/

/-- Characterisation of the per-step camera read loop: a returned camera index
is in range, its read failed, and every camera before it read successfully. -/
theorem readFrameLoop_some (read : ℕ → ℕ → Bool) (n : ℕ) :
    ∀ (fn : List (List ℕ)) (a i : ℕ), readFrameLoop read n a fn = some i →
      a ≤ i ∧ i - a < fn.length ∧
      read i ((fn.getD (i - a) []).getD n 0) = false ∧
      ∀ j, a ≤ j → j < i → read j ((fn.getD (j - a) []).getD n 0) = true := by
  intro fn
  induction fn with
  | nil => intro a i h; simp [readFrameLoop] at h
  | cons row rest ih =>
    intro a i h
    rw [readFrameLoop] at h
    by_cases hr : read a (row.getD n 0) = true
    · rw [if_pos hr] at h
      obtain ⟨h1, h2, h3, h4⟩ := ih (a + 1) i h
      refine ⟨by omega, by simp only [List.length_cons]; omega, ?_, ?_⟩
      · have heq : i - a = (i - (a + 1)) + 1 := by omega
        rw [heq]
        simpa using h3
      · intro j hja hji
        rcases Nat.eq_or_lt_of_le hja with rfl | hlt
        · simpa using hr
        · have := h4 j (by omega) hji
          have heq : j - a = (j - (a + 1)) + 1 := by omega
          rw [heq]
          simpa using this
    · rw [if_neg hr] at h
      injection h with h'
      subst h'
      refine ⟨le_refl _, by simp, ?_, ?_⟩
      · simpa using hr
      · intro j hja hji
        omega

/-- C6: a failed frame read aborts the whole frame-writing run at the first
failing (step, camera) pair: the aborting step is not a clipped one, its
failing camera is in range and every camera before it at that step read
successfully, and every earlier step of the schedule was either clipped or
fully read — no failed read is skipped, silently continued past, or retried. -/
theorem writeLoop_abort_spec (read : ℕ → ℕ → Bool) (fn : List (List ℕ)) (clip : ℕ → Bool)
    (ns : List ℕ) (n i : ℕ) (h : writeLoop read fn clip ns = .error (n, i)) :
    clip n = false ∧
    i < fn.length ∧
    read i ((fn.getD i []).getD n 0) = false ∧
    (∀ j, j < i → read j ((fn.getD j []).getD n 0) = true) ∧
    ∃ pre post, ns = pre ++ n :: post ∧
      ∀ m ∈ pre, clip m = true ∨ firstFailedCam read fn m = none := by
  induction ns with
  | nil => simp [writeLoop] at h
  | cons m rest ih =>
    rw [writeLoop] at h
    by_cases hc : clip m = true
    · rw [if_pos hc] at h
      obtain ⟨a1, a2, a3, a4, pre, post, hsplit, hpre⟩ := ih h
      refine ⟨a1, a2, a3, a4, m :: pre, post, by rw [hsplit]; rfl, ?_⟩
      intro x hx
      rcases List.mem_cons.mp hx with rfl | hx'
      · exact Or.inl hc
      · exact hpre x hx'
    · rw [if_neg hc] at h
      cases hff : firstFailedCam read fn m with
      | some k =>
        rw [hff] at h
        injection h with h'
        obtain ⟨rfl, rfl⟩ : m = n ∧ k = i := ⟨congrArg Prod.fst h', congrArg Prod.snd h'⟩
        rw [firstFailedCam] at hff
        obtain ⟨-, h2, h3, h4⟩ := readFrameLoop_some read m fn 0 k hff
        simp only [Nat.sub_zero] at h2 h3 h4
        exact ⟨by simpa using hc, h2, h3, fun j hj => h4 j (Nat.zero_le j) hj,
          [], rest, rfl, by simp⟩
      | none =>
        rw [hff] at h
        cases hrest : writeLoop read fn clip rest with
        | ok ws =>
          rw [hrest] at h
          cases h
        | error e =>
          rw [hrest] at h
          injection h with h'
          subst h'
          obtain ⟨a1, a2, a3, a4, pre, post, hsplit, hpre⟩ := ih hrest
          refine ⟨a1, a2, a3, a4, m :: pre, post, by rw [hsplit]; rfl, ?_⟩
          intro x hx
          rcases List.mem_cons.mp hx with rfl | hx'
          · exact Or.inr hff
          · exact hpre x hx'

/-- Witness for C6: two cameras over three output steps, where camera 1's read
at its scheduled frame 5 (output step 1) fails — the run aborts exactly there. -/
theorem writeLoop_abort_spec_witness :
    (writeLoop (fun i pos => !(i == 1 && pos == 5)) [[1, 2, 3], [4, 5, 6]]
        (fun _ => false) [0, 1, 2] = .error (1, 1)) ∧
    ((fun _ : ℕ => false) 1 = false ∧
      1 < ([[1, 2, 3], [4, 5, 6]] : List (List ℕ)).length ∧
      (fun i pos => !(i == 1 && pos == 5)) 1 ((([[1, 2, 3], [4, 5, 6]] : List (List ℕ)).getD 1 []).getD 1 0) = false ∧
      (∀ j, j < 1 → (fun i pos => !(i == 1 && pos == 5)) j ((([[1, 2, 3], [4, 5, 6]] : List (List ℕ)).getD j []).getD 1 0) = true) ∧
      ∃ pre post, ([0, 1, 2] : List ℕ) = pre ++ 1 :: post ∧
        ∀ m ∈ pre, (fun _ : ℕ => false) m = true ∨
          firstFailedCam (fun i pos => !(i == 1 && pos == 5)) [[1, 2, 3], [4, 5, 6]] m = none) := by
  refine ⟨rfl, ?_⟩
  exact writeLoop_abort_spec (fun i pos => !(i == 1 && pos == 5)) [[1, 2, 3], [4, 5, 6]]
    (fun _ => false) [0, 1, 2] 1 1 rfl

/-! ### Claim C7 -/

/-- The clamp function keeps the cursor in `[0, maxFrame]` and sends negative
requests to 0. -/
theorem clampCursor_spec (maxFrame z : ℤ) (hmax : 0 ≤ maxFrame) :
    0 ≤ clampCursor maxFrame z ∧ clampCursor maxFrame z ≤ maxFrame ∧
      (z < 0 → clampCursor maxFrame z = 0) := by
  unfold clampCursor
  refine ⟨le_max_left 0 _, max_le hmax (min_le_right z maxFrame), ?_⟩
  intro hz
  have h1 : min z maxFrame ≤ z := min_le_left z maxFrame
  exact max_eq_left (by omega)

/-- C7: a frame-increment navigation key (left/right/up/down arrow) always
leaves the cursor clamped into the valid range `[0, maxFrame]`: the new cursor
is exactly the clamp of the displaced cursor, it is never negative, and
stepping backward past index 0 lands exactly on 0. -/
theorem handleKey_clamps (maxFrame : ℤ) (has_cb : Bool) (k : ℤ) (st : PlayerState)
    (hk : k = 63234 ∨ k = 63235 ∨ k = 63232 ∨ k = 63233) (hmax : 0 ≤ maxFrame) :
    (handleKey maxFrame has_cb k st).n = clampCursor maxFrame (st.n + keyDelta k) ∧
    0 ≤ (handleKey maxFrame has_cb k st).n ∧
    (handleKey maxFrame has_cb k st).n ≤ maxFrame ∧
    (st.n + keyDelta k < 0 → (handleKey maxFrame has_cb k st).n = 0) := by
  have hc := clampCursor_spec maxFrame (st.n + keyDelta k) hmax
  have hn : (handleKey maxFrame has_cb k st).n = clampCursor maxFrame (st.n + keyDelta k) := by
    rcases hk with rfl | rfl | rfl | rfl <;>
      simp [handleKey, keyDelta, clampCursor, LEFT_RIGHT_MULTIPLIER, FRAME_INCREMENT,
        sub_eq_add_neg]
  refine ⟨hn, ?_, ?_, ?_⟩
  · rw [hn]; exact hc.1
  · rw [hn]; exact hc.2.1
  · intro hneg; rw [hn]; exact hc.2.2 hneg

/-- Witness for C7: from cursor 0 with a 100-frame video, pressing the down
arrow (step back by 8) clamps the cursor to 0. -/
theorem handleKey_clamps_witness :
    (((63233 : ℤ) = 63234 ∨ (63233 : ℤ) = 63235 ∨ (63233 : ℤ) = 63232 ∨
        (63233 : ℤ) = 63233) ∧ (0 : ℤ) ≤ 100) ∧
    ((handleKey 100 false 63233 (PlayerState.mk 0 false 0 false false false)).n =
        clampCursor 100 ((PlayerState.mk 0 false 0 false false false).n + keyDelta 63233) ∧
      0 ≤ (handleKey 100 false 63233 (PlayerState.mk 0 false 0 false false false)).n ∧
      (handleKey 100 false 63233 (PlayerState.mk 0 false 0 false false false)).n ≤ 100 ∧
      ((PlayerState.mk 0 false 0 false false false).n + keyDelta 63233 < 0 →
        (handleKey 100 false 63233 (PlayerState.mk 0 false 0 false false false)).n = 0)) := by
  refine ⟨⟨by norm_num, by norm_num⟩, ?_⟩
  exact handleKey_clamps 100 false 63233 (PlayerState.mk 0 false 0 false false false)
    (by norm_num) (by norm_num)

/-! ### Claim C8 -/

/-- C8 (amended): the playback loop exits on a key press exactly when the key
is escape (27, in BOTH callback modes), or when it is any other positive
(actually pressed) key that is neither a recognized command key nor — with a
callback configured — one of the labelling keys; with a callback configured
only escape exits. -/
theorem handleKey_exit_iff (maxFrame : ℤ) (has_cb : Bool) (k : ℤ) (st : PlayerState) :
    (handleKey maxFrame has_cb k st).exited = true ↔
      (k = 27 ∨ (0 < k ∧ has_cb = false ∧
        k ∉ ([63234, 63235, 63232, 63233, 97, 100, 119, 115, 32] : List ℤ))) := by
  by_cases h1 : k = 63234
  · subst h1; cases has_cb <;> simp [handleKey]
  by_cases h2 : k = 63235
  · subst h2; cases has_cb <;> simp [handleKey]
  by_cases h3 : k = 63232
  · subst h3; cases has_cb <;> simp [handleKey]
  by_cases h4 : k = 63233
  · subst h4; cases has_cb <;> simp [handleKey]
  by_cases h5 : k = 97
  · subst h5; cases has_cb <;> simp [handleKey]
  by_cases h6 : k = 100
  · subst h6; cases has_cb <;> simp [handleKey]
  by_cases h7 : k = 119
  · subst h7; cases has_cb <;> simp [handleKey]
  by_cases h8 : k = 115
  · subst h8; cases has_cb <;> simp [handleKey]
  by_cases h9 : k = 98
  · subst h9; cases has_cb <;> simp [handleKey]
  by_cases h10 : k = 110
  · subst h10; cases has_cb <;> simp [handleKey]
  by_cases h11 : k = 32
  · subst h11; cases has_cb <;> simp [handleKey]
  by_cases hexit : k = 27 ∨ (0 < k ∧ has_cb = false)
  · simp only [handleKey, h1, h2, h3, h4, h5, h6, h7, h8, h9, h10, h11, if_false,
      false_and, if_neg, ite_false]
    simp [hexit, h1, h2, h3, h4, h5, h6, h7, h8, h9, h10, h11]
  · simp [handleKey, h1, h2, h3, h4, h5, h6, h7, h8, h9, h10, h11, hexit]

/-- C8 counterexample: with the event callback configured, pressing escape
(key 27) still exits the playback loop — the claim's "exit suppressed when an
event callback is configured" is false for escape. -/
theorem handleKey_escape_exits_with_callback :
    (handleKey 100 true 27 (PlayerState.mk 0 false 0 false false false)).exited = true := by
  simp [handleKey]

/-! ### Claim C10 -/

/-- When every index fits (at most 65536 frames), the `uint16` cast is the
identity on a stored row. -/
theorem frameRowStored_eq_frameRow (ref : ℚ) (ts t_cam : List ℚ) (hlen : ts.length ≤ 65536) :
    frameRowStored ref ts t_cam = frameRow ref ts t_cam := by
  unfold frameRowStored
  conv_rhs => rw [← List.map_id (frameRow ref ts t_cam)]
  apply List.map_congr_left
  intro i hi
  rcases List.mem_map.mp hi with ⟨t, -, rfl⟩
  have hb := nearestIdx_le (time_to_float ts ref) (t - ref)
  have hl2 : (time_to_float ts ref).length = ts.length := by simp [time_to_float]
  have hlt : nearestIdx (time_to_float ts ref) (t - ref) < 65536 := by omega
  simpa using Nat.mod_eq_of_lt hlt

/-- C10: stored frame indices are 16-bit: every stored cell is the true
nearest index reduced modulo 2^16, and when the camera stream has at most
2^16 frames the stored row equals the row of true nearest indices. -/
theorem frameRowStored_uint16 (ref : ℚ) (ts t_cam : List ℚ) :
    frameRowStored ref ts t_cam = (frameRow ref ts t_cam).map (fun i => i % 2 ^ 16) ∧
    (ts.length ≤ 2 ^ 16 → frameRowStored ref ts t_cam = frameRow ref ts t_cam) := by
  constructor
  · norm_num [frameRowStored]
  · intro hlen
    exact frameRowStored_eq_frameRow ref ts t_cam (by norm_num at hlen ⊢; omega)

/-- Witness for C10 at a 2-frame camera stream. -/
theorem frameRowStored_uint16_witness :
    (([(0 : ℚ), 1]).length ≤ 2 ^ 16) ∧
    (frameRowStored 0 [(0 : ℚ), 1] [0] =
        (frameRow 0 [(0 : ℚ), 1] [0]).map (fun i => i % 2 ^ 16) ∧
      (([(0 : ℚ), 1]).length ≤ 2 ^ 16 →
        frameRowStored 0 [(0 : ℚ), 1] [0] = frameRow 0 [(0 : ℚ), 1] [0])) := by
  exact ⟨by norm_num, frameRowStored_uint16 0 [(0 : ℚ), 1] [0]⟩

/-! ### The 65538-frame streams -/

/-- Length of the long stream. -/
theorem bigTs_length : bigTs.length = 65538 := by
  unfold bigTs
  rw [List.length_map, List.length_range]

/-- Entry `k` of the long stream is second `k`. -/
theorem bigTs_get (k : ℕ) (hk : k < bigTs.length) : bigTs.get ⟨k, hk⟩ = (k : ℚ) := by
  unfold bigTs
  simp only [List.get_eq_getElem, List.getElem_map, List.getElem_range]

/-- The long stream is strictly increasing. -/
theorem bigTs_sorted : bigTs.Pairwise (· < ·) := by
  unfold bigTs
  refine List.Pairwise.map _ ?_ (List.pairwise_lt_range 65538)
  intro a b hab
  exact_mod_cast hab

/-- First timestamp of the long stream. -/
theorem bigTs_getD_zero : bigTs.getD 0 0 = 0 := by
  have h0 : 0 < bigTs.length := by rw [bigTs_length]; norm_num
  rw [List.getD_eq_getElem?_getD, List.getElem?_eq_getElem h0]
  have hg := bigTs_get 0 h0
  simp only [List.get_eq_getElem] at hg
  simp [hg]

/-- Last timestamp of the long stream. -/
theorem bigTs_getD_last : bigTs.getD (bigTs.length - 1) 0 = 65537 := by
  rw [bigTs_length]
  have h0 : 65538 - 1 < bigTs.length := by rw [bigTs_length]; omega
  rw [List.getD_eq_getElem?_getD, List.getElem?_eq_getElem h0]
  have hg := bigTs_get (65538 - 1) h0
  simp only [List.get_eq_getElem] at hg
  rw [Option.getD_some, hg]
  norm_num

/-- The four long streams all start at second 0. -/
theorem big_lat : t_latest_start_of bigS = 0 := by
  have h := t_latest_start_four bigTs bigTs bigTs bigTs
  rw [show bigS = [bigTs, bigTs, bigTs, bigTs] from rfl, h, bigTs_getD_zero]
  norm_num [datetime_min]

/-- The four long streams all end at second 65537. -/
theorem big_earl : t_earliest_end_of bigS = 65537 := by
  have h := t_earliest_end_four bigTs bigTs bigTs bigTs
  rw [show bigS = [bigTs, bigTs, bigTs, bigTs] from rfl, h, bigTs_getD_last]
  norm_num [datetime_max]

/-- The long virtual timeline at 1 fps. -/
theorem big_tl : syncTimeline bigS 1 = date_range 0 65537 1 := by
  unfold syncTimeline
  rw [big_lat, big_earl]
  norm_num

/-- The ceiling count of the long virtual timeline. -/
theorem big_ceil : (⌈((65537 : ℚ) - 0) / 1⌉).toNat = 65537 := by
  have h1 : ((65537 : ℚ) - 0) / 1 = ((65537 : ℤ) : ℚ) := by norm_num
  rw [h1, Int.ceil_intCast]
  rfl

/-- The long virtual timeline has 65537 entries (seconds 0 through 65536). -/
theorem big_tl_length : (syncTimeline bigS 1).length = 65537 := by
  rw [big_tl, date_range_length 0 65537 1 (by norm_num), big_ceil]

/-- Entry `k` of the long virtual timeline is second `k`. -/
theorem big_tl_get (k : ℕ) (hk : k < (syncTimeline bigS 1).length) :
    (syncTimeline bigS 1).get ⟨k, hk⟩ = (k : ℚ) := by
  have hk2 : k < (date_range 0 65537 1).length := by
    rw [← big_tl]
    exact hk
  have h := date_range_get 0 65537 1 (by norm_num) k hk2
  simp only [List.get_eq_getElem] at h ⊢
  simp only [big_tl]
  rw [h]
  ring

/-- `time_to_float` with reference 0 is the identity. -/
theorem time_to_float_zero (ts : List ℚ) : time_to_float ts 0 = ts := by
  simp [time_to_float]

/-- Generic cell formula for a stored row. -/
theorem frameRowStored_get (ref : ℚ) (ts t_cam : List ℚ) (k : ℕ)
    (hk : k < (frameRowStored ref ts t_cam).length) (hk2 : k < t_cam.length) :
    (frameRowStored ref ts t_cam).get ⟨k, hk⟩ =
      nearestIdx (time_to_float ts ref) (t_cam.get ⟨k, hk2⟩ - ref) % 65536 := by
  simp only [frameRowStored, frameRow, List.get_eq_getElem, List.getElem_map]

/-- Stored cell `k` for one of the long streams: the true nearest index is
`k`, stored as `k mod 2^16`. -/
theorem big_row_get (k : ℕ)
    (hk : k < (frameRowStored 0 bigTs (syncTimeline bigS 1)).length) :
    (frameRowStored 0 bigTs (syncTimeline bigS 1)).get ⟨k, hk⟩ = k % 65536 := by
  have hlen : (frameRowStored 0 bigTs (syncTimeline bigS 1)).length =
      (syncTimeline bigS 1).length := by
    simp [frameRowStored, frameRow]
  have hk2 : k < (syncTimeline bigS 1).length := by
    rw [← hlen]
    exact hk
  have hk3 : k < bigTs.length := by
    rw [bigTs_length]
    rw [big_tl_length] at hk2
    omega
  rw [frameRowStored_get 0 bigTs (syncTimeline bigS 1) k hk hk2, time_to_float_zero,
    big_tl_get k hk2, sub_zero, ← bigTs_get k hk3,
    nearestIdx_self bigTs bigTs_sorted k hk3]

/-! ### Claim C9 -/

/-- Row 3 of any four-camera frame-index table is camera 4's stored row. -/
theorem syncFrameNums_getD3 (a b c d : List ℚ) (fps : ℚ) :
    (syncFrameNums [a, b, c, d] fps).getD 3 [] =
      frameRowStored (t_latest_start_of [a, b, c, d]) d (syncTimeline [a, b, c, d] fps) := by
  unfold syncFrameNums
  simp only [List.map_cons, List.map_nil, List.getD_cons_succ, List.getD_cons_zero]

/-- Row 3 of the long synchronization's frame-index table is the stored row of
the long stream. -/
theorem syncFrameNums_row3 :
    (syncFrameNums bigS 1).getD 3 [] = frameRowStored 0 bigTs (syncTimeline bigS 1) := by
  have h := syncFrameNums_getD3 bigTs bigTs bigTs bigTs 1
  rw [show ([bigTs, bigTs, bigTs, bigTs] : List (List ℚ)) = bigS from rfl] at h
  rw [h, big_lat]

/-- The long stream is non-decreasing. -/
theorem bigTs_le : bigTs.Pairwise (· ≤ ·) := bigTs_sorted.imp (fun h => le_of_lt h)

/-- C9 counterexample: the long stream has non-decreasing (indeed strictly
increasing) timestamps, yet its stored FrameIndexTable row produced by the
synchronizer is NOT monotonically non-decreasing — the `uint16` cast wraps the
nearest index 65536 to 0 right after the stored value 65535. -/
theorem frameRow_monotone_counterexample :
    bigTs.Pairwise (· ≤ ·) ∧
    (syncFrameNums bigS 1).getD 3 [] = frameRowStored 0 bigTs (syncTimeline bigS 1) ∧
    ¬ (frameRowStored 0 bigTs (syncTimeline bigS 1)).Pairwise (· ≤ ·) := by
  refine ⟨bigTs_le, syncFrameNums_row3, ?_⟩
  intro hp
  have hlen : (frameRowStored 0 bigTs (syncTimeline bigS 1)).length = 65537 := by
    simp [frameRowStored, frameRow, big_tl_length]
  have h1 := (List.pairwise_iff_getElem.mp hp) 65535 65536 (by omega) (by omega) (by omega)
  have e1 := big_row_get 65535 (by omega)
  have e2 := big_row_get 65536 (by omega)
  simp only [List.get_eq_getElem] at e1 e2
  rw [e1, e2] at h1
  norm_num at h1

/-- C9 (amended): for every camera stream with non-decreasing timestamps, the
row of TRUE nearest-frame indices over the synchronizer's virtual timeline is
monotonically non-decreasing; the row actually stored in the FrameIndexTable
is monotone provided the camera has at most 2^16 frames (so the uint16 cast
cannot wrap). -/
theorem frameRow_monotone (streams : List (List ℚ)) (fps : ℚ) (ref : ℚ) (ts : List ℚ)
    (hfps : 0 < fps) (hts : ts.Pairwise (· ≤ ·)) :
    (frameRow ref ts (syncTimeline streams fps)).Pairwise (· ≤ ·) ∧
    (ts.length ≤ 2 ^ 16 →
      (frameRowStored ref ts (syncTimeline streams fps)).Pairwise (· ≤ ·)) := by
  have hδ : 0 < 1 / fps := by positivity
  have htc2 : (syncTimeline streams fps).Chain' (· ≤ ·) :=
    (date_range_chain _ _ _).imp (fun a b hab => by rw [hab]; linarith)
  have htp : (syncTimeline streams fps).Pairwise (· ≤ ·) := List.chain'_iff_pairwise.mp htc2
  have hrow : (frameRow ref ts (syncTimeline streams fps)).Pairwise (· ≤ ·) := by
    unfold frameRow
    refine List.Pairwise.map _ ?_ htp
    intro a b hab
    exact nearestIdx_mono _ (by linarith)
  refine ⟨hrow, fun hlen => ?_⟩
  rw [frameRowStored_eq_frameRow ref ts _ (by norm_num at hlen; exact hlen)]
  exact hrow

/-- Witness for C9 at the demo streams with a 2-frame camera. -/
theorem frameRow_monotone_witness :
    ((0 : ℚ) < 1 ∧ ([(0 : ℚ), 1]).Pairwise (· ≤ ·)) ∧
    ((frameRow 0 [(0 : ℚ), 1] (syncTimeline demoStreams 1)).Pairwise (· ≤ ·) ∧
      (([(0 : ℚ), 1]).length ≤ 2 ^ 16 →
        (frameRowStored 0 [(0 : ℚ), 1] (syncTimeline demoStreams 1)).Pairwise (· ≤ ·))) := by
  refine ⟨⟨by norm_num, by norm_num [List.pairwise_cons]⟩, ?_⟩
  exact frameRow_monotone demoStreams 1 0 [(0 : ℚ), 1] (by norm_num)
    (by norm_num [List.pairwise_cons])

/-! ### Claim C1 -/

/-- C1 (amended): for every camera stream with strictly increasing timestamps
and at most 2^16 frames, every cell placed in the FrameIndexTable is the index
of a real frame whose timestamp is nearest (by absolute time difference) to
the corresponding virtual timestamp, and every equally close frame has an
index at least as large (ties resolve to the earlier index). -/
theorem frameRowStored_nearest (ref : ℚ) (ts t_cam : List ℚ)
    (hts : ts.Pairwise (· < ·)) (hne : ts ≠ []) (hlen : ts.length ≤ 2 ^ 16)
    (j : ℕ) (hj : j < t_cam.length) :
    IsNearestWithTieLow ts (t_cam.get ⟨j, hj⟩)
      ((frameRowStored ref ts t_cam).get
        ⟨j, by simpa [frameRowStored, frameRow] using hj⟩) := by
  have hlen2 : ts.length ≤ 65536 := by norm_num at hlen; exact hlen
  have hl2 : (time_to_float ts ref).length = ts.length := by simp [time_to_float]
  have hcell := frameRowStored_get ref ts t_cam j
    (by simpa [frameRowStored, frameRow] using hj) hj
  have hb := nearestIdx_le (time_to_float ts ref) (t_cam.get ⟨j, hj⟩ - ref)
  have hlt : nearestIdx (time_to_float ts ref) (t_cam.get ⟨j, hj⟩ - ref) < 65536 := by
    omega
  rw [hcell, Nat.mod_eq_of_lt hlt]
  have hsorted : (time_to_float ts ref).Pairwise (· < ·) := by
    unfold time_to_float
    refine List.Pairwise.map _ ?_ hts
    intro a b hab
    linarith
  have hne2 : time_to_float ts ref ≠ [] := by
    simp only [time_to_float, ne_eq, List.map_eq_nil_iff]
    exact hne
  obtain ⟨hi, hall⟩ := nearestIdx_spec (time_to_float ts ref) hsorted hne2
    (t_cam.get ⟨j, hj⟩ - ref)
  have hi2 : nearestIdx (time_to_float ts ref) (t_cam.get ⟨j, hj⟩ - ref) < ts.length := by
    rw [← hl2]
    exact hi
  refine ⟨hi2, ?_⟩
  intro m hm
  have hmain := hall m (by omega)
  simp only [time_to_float, List.get_eq_getElem, List.getElem_map] at hmain
  simp only [List.get_eq_getElem]
  simpa [sub_sub_sub_cancel_right] using hmain

/-- C1 counterexample: at virtual-timeline position 65536 (second 65536) of
the long streams, the synchronizer places index 0 in the table (the uint16
wrap of the true nearest index 65536), and 0 is NOT a nearest index — frame
65536 is at distance 0 while frame 0 is 65536 seconds away. -/
theorem frameRowStored_nearest_counterexample :
    (syncTimeline bigS 1).getD 65536 0 = 65536 ∧
    ((syncFrameNums bigS 1).getD 3 []).getD 65536 999 = 0 ∧
    ¬ IsNearestWithTieLow bigTs 65536 0 := by
  have htl_len : (syncTimeline bigS 1).length = 65537 := big_tl_length
  have h1 : (syncTimeline bigS 1).getD 65536 0 = 65536 := by
    have hb : 65536 < (syncTimeline bigS 1).length := by omega
    rw [List.getD_eq_getElem?_getD, List.getElem?_eq_getElem hb]
    have hv := big_tl_get 65536 hb
    simp only [List.get_eq_getElem] at hv
    rw [Option.getD_some, hv]
    norm_num
  have hrow_len : (frameRowStored 0 bigTs (syncTimeline bigS 1)).length = 65537 := by
    simp [frameRowStored, frameRow, big_tl_length]
  have h2 : ((syncFrameNums bigS 1).getD 3 []).getD 65536 999 = 0 := by
    rw [syncFrameNums_row3]
    have hb : 65536 < (frameRowStored 0 bigTs (syncTimeline bigS 1)).length := by omega
    rw [List.getD_eq_getElem?_getD, List.getElem?_eq_getElem hb]
    have hv := big_row_get 65536 hb
    simp only [List.get_eq_getElem] at hv
    rw [Option.getD_some, hv]
  refine ⟨h1, h2, ?_⟩
  rintro ⟨hi, hall⟩
  have hb2 : 65536 < bigTs.length := by
    rw [bigTs_length]
    omega
  have hmain := hall 65536 hb2
  have e0 : bigTs.get ⟨0, hi⟩ = 0 := by
    rw [bigTs_get 0 hi]
    norm_num
  have e1 : bigTs.get ⟨65536, hb2⟩ = 65536 := by
    have := bigTs_get 65536 hb2
    rw [this]
    norm_num
  rw [e0, e1] at hmain
  have d0 : |(0 : ℚ) - 65536| = 65536 := by
    rw [abs_of_nonpos (by norm_num)]
    norm_num
  have d1 : |(65536 : ℚ) - 65536| = 0 := by
    norm_num
  rw [d0, d1] at hmain
  rcases hmain with hlt | ⟨heq, -⟩
  · norm_num at hlt
  · norm_num at heq

/-- Witness for C1 at a 3-frame camera (timestamps 0, 1, 3 s), reference
instant 5 s and the single virtual timestamp 2 s: frames 1 and 3 are equally
close, and the table holds the earlier index 1. -/
theorem frameRowStored_nearest_witness :
    (([(0 : ℚ), 1, 3]).Pairwise (· < ·) ∧ ([(0 : ℚ), 1, 3]) ≠ [] ∧
      ([(0 : ℚ), 1, 3]).length ≤ 2 ^ 16 ∧ 0 < ([(2 : ℚ)]).length) ∧
    IsNearestWithTieLow [(0 : ℚ), 1, 3] (([(2 : ℚ)]).get ⟨0, by norm_num⟩)
      ((frameRowStored 5 [(0 : ℚ), 1, 3] [(2 : ℚ)]).get
        ⟨0, by simp [frameRowStored, frameRow]⟩) := by
  refine ⟨⟨by norm_num [List.pairwise_cons], by simp, by norm_num, by norm_num⟩, ?_⟩
  exact frameRowStored_nearest 5 [(0 : ℚ), 1, 3] [(2 : ℚ)]
    (by norm_num [List.pairwise_cons]) (by simp) (by norm_num) 0 (by norm_num)
